import Mathlib

/-!
Verification of the `nepali_toolkit.datetime` BS (Bikram Sambat) date engine:
a shallow embedding of `nepali_toolkit/datetime/__init__.py` and
`nepali_toolkit/datetime/helpers.py`, together with theorems settling the
specification's claims about construction, validation, comparison, rendering
and arithmetic.

Python integers are embedded as `ℤ`; functions that raise exceptions are
embedded as `Except DateError` computations; `None` results are `Option.none`.
-/

/-- A Bikram Sambat date value: the `(year, month, day)` triple stored by
`date.__new__` in the `_year`, `_month`, `_day` slots. -/
structure BsDate where
  year : ℤ
  month : ℤ
  day : ℤ
  deriving DecidableEq, Repr

/-- Modelled from the spec: the Calendar Table (`data/calender.json`) and the
constants `MINYEAR`, `MAXYEAR` (`constants.py`) are not among the provided
source files.  The spec describes the table as an immutable mapping covering a
contiguous range `[MINYEAR, MAXYEAR]` of years, each year carrying 12 month
lengths.  We embed it as a record: `months y m` is the stored day-count of
month `m` of year `y`; lookup of a year outside `[minYear, maxYear]` is a
`KeyError`, which the embedding of `_days_in_month` below raises explicitly. -/
structure CalendarTable where
  minYear : ℤ
  maxYear : ℤ
  months : ℤ → ℤ → ℤ

/-- Modelled from the spec: the table invariant — the covered range is
nonempty and every stored month length is at least 1. -/
def CalendarTable.Wf (t : CalendarTable) : Prop :=
  t.minYear ≤ t.maxYear ∧
    ∀ y m, t.minYear ≤ y → y ≤ t.maxYear → 1 ≤ m → m ≤ 12 → 1 ≤ t.months y m

/-- The failure modes of the date engine, one constructor per distinct
`raise`/failure site in the Python source:
`typeError` for a failed `int(...)`/`__index__` coercion,
`valueYear`/`valueMonth`/`valueDay` for the three `ValueError`s of
`_check_date_fields`, `assertMonth` for the `assert` in `_days_in_month`,
and `keyYear` for the `_CALENDAR[str(year)]` `KeyError`. -/
inductive DateError where
  | typeError
  | valueYear
  | valueMonth
  | valueDay
  | assertMonth
  | keyYear
  deriving DecidableEq, Repr

/-- The spec's `OutOfRange` taxon: failures caused by a year outside
`[MINYEAR, MAXYEAR]` or a month outside `[1, 12]`. -/
def DateError.isOutOfRange : DateError → Bool
  | .valueYear => true
  | .valueMonth => true
  | .assertMonth => true
  | .keyYear => true
  | _ => false

/-- The spec's `InvalidDay` taxon: a day outside `1..days_in_month(y, m)`. -/
def DateError.isInvalidDay : DateError → Bool
  | .valueDay => true
  | _ => false

/-- The spec's `InvalidArgument` taxon: a non-coercible argument. -/
def DateError.isInvalidArgument : DateError → Bool
  | .typeError => true
  | _ => false

/-- Embeds `helpers._days_in_month`: `assert 1 <= month <= 12`, then
`_CALENDAR[str(year)]["months"][str(month)]`; a year absent from the table
(equivalently, outside the contiguous covered range) raises `KeyError`. -/
def days_in_month (t : CalendarTable) (year month : ℤ) : Except DateError ℤ :=
  if 1 ≤ month ∧ month ≤ 12 then
    if t.minYear ≤ year ∧ year ≤ t.maxYear then .ok (t.months year month)
    else .error .keyYear
  else .error .assertMonth

/-- Embeds `helpers._check_date_fields` on already-coerced integers: year
range check, then month range check, then day check against
`_days_in_month`, raising the corresponding `ValueError` at the first
failure. -/
def check_date_fields (t : CalendarTable) (year month day : ℤ) :
    Except DateError (ℤ × ℤ × ℤ) :=
  if ¬(t.minYear ≤ year ∧ year ≤ t.maxYear) then .error .valueYear
  else if ¬(1 ≤ month ∧ month ≤ 12) then .error .valueMonth
  else
    match days_in_month t year month with
    | .error e => .error e
    | .ok dim =>
        if ¬(1 ≤ day ∧ day ≤ dim) then .error .valueDay
        else .ok (year, month, day)

/-- Embeds `date.__new__` after the `int(...)` coercions: validate the fields
and store the triple. -/
def date_new (t : CalendarTable) (year month day : ℤ) : Except DateError BsDate :=
  match check_date_fields t year month day with
  | .error e => .error e
  | .ok (y, m, d) => .ok ⟨y, m, d⟩

/-- Embeds `date.replace`: each omitted field (`None` argument) defaults to
the receiver's stored field, then the triple is passed back through the
constructor. -/
def date_replace (t : CalendarTable) (d : BsDate)
    (year month day : Option ℤ) : Except DateError BsDate :=
  date_new t (year.getD d.year) (month.getD d.month) (day.getD d.day)

/-- The invariant of a stored BsDate with respect to the table: exactly the
conditions `_check_date_fields` enforces. -/
def ValidDate (t : CalendarTable) (d : BsDate) : Prop :=
  t.minYear ≤ d.year ∧ d.year ≤ t.maxYear ∧
    1 ≤ d.month ∧ d.month ≤ 12 ∧ 1 ≤ d.day ∧ d.day ≤ t.months d.year d.month

instance (t : CalendarTable) (d : BsDate) : Decidable (ValidDate t d) := by
  unfold ValidDate; infer_instance

/-- Python's lexicographic `>` on `(year, month, day)` tuples. -/
def tripleGt (x y : ℤ × ℤ × ℤ) : Prop :=
  y.1 < x.1 ∨ (x.1 = y.1 ∧ (y.2.1 < x.2.1 ∨ (x.2.1 = y.2.1 ∧ y.2.2 < x.2.2)))

instance (x y : ℤ × ℤ × ℤ) : Decidable (tripleGt x y) := by
  unfold tripleGt; infer_instance

/-- Embeds `helpers._compare`: `0 if x == y else 1 if x > y else -1`. -/
def compare_triples (x y : ℤ × ℤ × ℤ) : ℤ :=
  if x = y then 0 else if tripleGt x y then 1 else -1

/-- Embeds `date._cmp`: compare the two stored triples. -/
def date_cmp (a b : BsDate) : ℤ :=
  compare_triples (a.year, a.month, a.day) (b.year, b.month, b.day)

/-- A value a comparison operator may receive on the right: either another
BsDate, or some non-date Python value (whose identity is irrelevant, since
`isinstance` dispatches uniformly on all of them). -/
inductive Comparand where
  | bs : BsDate → Comparand
  | nonDate : Comparand

/-- Embeds `date.__eq__`: `_cmp == 0` for a `date`, `NotImplemented`
(`none`) otherwise. -/
def date_eq (a : BsDate) : Comparand → Option Bool
  | .bs b => some (decide (date_cmp a b = 0))
  | .nonDate => none

/-- Embeds `date.__le__`. -/
def date_le (a : BsDate) : Comparand → Option Bool
  | .bs b => some (decide (date_cmp a b ≤ 0))
  | .nonDate => none

/-- Embeds `date.__lt__`. -/
def date_lt (a : BsDate) : Comparand → Option Bool
  | .bs b => some (decide (date_cmp a b < 0))
  | .nonDate => none

/-- Embeds `date.__ge__`. -/
def date_ge (a : BsDate) : Comparand → Option Bool
  | .bs b => some (decide (0 ≤ date_cmp a b))
  | .nonDate => none

/-- Embeds `date.__gt__`. -/
def date_gt (a : BsDate) : Comparand → Option Bool
  | .bs b => some (decide (0 < date_cmp a b))
  | .nonDate => none

/-- Embeds `date.__add__` (and `__radd__`): the body in the source is the
single statement `pass`, so the call returns Python `None` whatever the
arguments are. -/
def date_add (_d : BsDate) (_delta : ℤ) : Option BsDate :=
  none

/-- Embeds `date.__sub__`: likewise a `pass` body returning `None`. -/
def date_sub (_a _b : BsDate) : Option ℤ :=
  none

/-- Embeds `date.from_datetime_date`.  A Gregorian input is represented by
its signed day offset from the reference Gregorian date
(`REFERENCE_DATE_AD`, a constant whose file is not among the sources; only
the offset `from_date - datetime.date(**REFERENCE_DATE_AD)` ever reaches the
arithmetic).  The method builds `cls(MINYEAR, 1, 1)` — which can raise — and
adds the offset via `__add__`. -/
def from_datetime_date (t : CalendarTable) (offset : ℤ) :
    Except DateError (Option BsDate) :=
  match date_new t t.minYear 1 1 with
  | .error e => .error e
  | .ok epoch => .ok (date_add epoch offset)

/-- Modelled from the spec: the total day-count of a BS year, the sum of its
12 stored month lengths (§4.3 of the spec; the repository leaves the ordinal
arithmetic unimplemented). -/
def yearDays (t : CalendarTable) (y : ℤ) : ℤ :=
  ∑ m ∈ Finset.Icc (1 : ℤ) 12, t.months y m

/-- Modelled from the spec: `to_ordinal(date)` — the day-counts of all full
years from `MINYEAR` up to (excluding) `date.year`, plus the day-counts of
the months of `date.year` strictly before `date.month`, plus `date.day`
(§4.3; unimplemented in the repository). -/
def to_ordinal (t : CalendarTable) (d : BsDate) : ℤ :=
  (∑ y ∈ Finset.Ico t.minYear d.year, yearDays t y) +
    (∑ m ∈ Finset.Ico (1 : ℤ) d.month, t.months d.year m) + d.day

/-- Decimal digits of a natural number, least significant first, with an
explicit structural fuel so that the definition reduces in the kernel. -/
def digitsRev : ℕ → ℕ → List ℕ
  | 0, _ => []
  | _ + 1, 0 => []
  | f + 1, n + 1 => (n + 1) % 10 :: digitsRev f ((n + 1) / 10)

/-- Decimal rendering of a natural number, as Python's `"%d" % n` produces. -/
def natToStr (k : ℕ) : String :=
  if k = 0 then "0"
  else String.mk ((digitsRev k k).reverse.map fun d => Char.ofNat (48 + d))

/-- Left-pad a string with `'0'` up to width `w` (the zero-padded minimum
field width of Python's `%0wd`). -/
def padLeft (w : ℕ) (s : String) : String :=
  String.mk (List.replicate (w - s.length) '0') ++ s

/-- Python's `"%0wd" % n` on an integer: for negative `n` the sign counts
toward the field width. -/
def padNum (w : ℕ) (n : ℤ) : String :=
  if n < 0 then "-" ++ padLeft (w - 1) (natToStr n.natAbs)
  else padLeft w (natToStr n.toNat)

/-- Embeds `date.isoformat` (also `__str__`):
`"%04d-%02d-%02d" % (year, month, day)`. -/
def isoformat (d : BsDate) : String :=
  padNum 4 d.year ++ "-" ++ padNum 2 d.month ++ "-" ++ padNum 2 d.day

/-- A Python value reaching the constructor's `int(...)` coercion: an `int`,
a `float` (embedded as an exact fraction `ℚ`, faithful for the
finitely-representable values used here), or `None` (the non-numeric case the
source itself documents as raising `TypeError`). -/
inductive PyVal where
  | vint : ℤ → PyVal
  | vfloat : ℚ → PyVal
  | vnone : PyVal

/-- Truncation of an exact fraction toward zero, the rounding `int(float)`
performs in Python. -/
def ratTrunc (q : ℚ) : ℤ :=
  if q.num < 0 then -(Int.ofNat (q.num.natAbs / q.den))
  else Int.ofNat (q.num.natAbs / q.den)

/-- Embeds Python's `int(x)` coercion on these values: an `int` passes
through, a `float` is truncated toward zero, and `None` raises `TypeError`
(`"'NoneType' object cannot be interpreted as an integer"`). -/
def pyToInt : PyVal → Except DateError ℤ
  | .vint n => .ok n
  | .vfloat q => .ok (ratTrunc q)
  | .vnone => .error .typeError

/-- Embeds the full `date.__new__` entry point on raw Python arguments:
`_check_date_fields(int(year), int(month), int(day))`; Python evaluates the
three coercions left to right before any field validation runs. -/
def date_new_py (t : CalendarTable) (year month day : PyVal) :
    Except DateError BsDate :=
  match pyToInt year with
  | .error e => .error e
  | .ok y =>
      match pyToInt month with
      | .error e => .error e
      | .ok m =>
          match pyToInt day with
          | .error e => .error e
          | .ok d => date_new t y m d

/-- A small concrete table used to instantiate the universally quantified
theorems: two covered years, every month 30 days long. -/
def sampleTable : CalendarTable :=
  ⟨2078, 2079, fun _ _ => 30⟩

theorem sampleTable_wf : sampleTable.Wf := by
  refine ⟨by norm_num [sampleTable], ?_⟩
  intro y m _ _ _ _
  simp [sampleTable]

/-- `date_new` succeeds exactly on in-range triples, and the stored value is
that triple. -/
theorem date_new_ok_iff (t : CalendarTable) (y m d : ℤ) (b : BsDate) :
    date_new t y m d = .ok b ↔
      ValidDate t b ∧ b.year = y ∧ b.month = m ∧ b.day = d := by
  unfold date_new check_date_fields days_in_month
  by_cases h1 : t.minYear ≤ y ∧ y ≤ t.maxYear
  · by_cases h2 : 1 ≤ m ∧ m ≤ 12
    · by_cases h3 : 1 ≤ d ∧ d ≤ t.months y m
      · simp [h1, h2, h3]
        constructor
        · rintro rfl
          exact ⟨⟨h1.1, h1.2, h2.1, h2.2, h3.1, h3.2⟩, rfl, rfl, rfl⟩
        · rintro ⟨hv, hy, hm, hd⟩
          cases b
          simp_all
      · simp [h1, h2, h3]
        rintro ⟨_, _, _, _, v5, v6⟩ rfl rfl hd
        subst hd
        exact h3 ⟨v5, v6⟩
    · simp [h1, h2]
      rintro ⟨_, _, v3, v4, _, _⟩ rfl rfl hd
      exact h2 ⟨v3, v4⟩
  · simp [h1]
    rintro ⟨v1, v2, _, _, _, _⟩ rfl rfl hd
    exact h1 ⟨v1, v2⟩

/-- C1: the claim states that `date + timedelta` returns a BsDate whose
ordinal is `to_ordinal(date) + delta` and that `-` inverts it; in the source
both `date.__add__` and `date.__sub__` have `pass` bodies, so each call
returns `None` — here evaluated at the failing input
`date(2078, 9, 1) + timedelta(days=1)` (and the corresponding
subtraction). -/
theorem add_and_sub_are_stubs :
    date_add ⟨2078, 9, 1⟩ 1 = none ∧ date_sub ⟨2078, 9, 2⟩ ⟨2078, 9, 1⟩ = none :=
  ⟨rfl, rfl⟩

/-- C2: the claim states `from_datetime_date` returns a BsDate value; on any
well-formed table it instead returns Python `None` for every input, because
the `+` it delegates to is the `pass` stub. -/
theorem from_datetime_date_yields_none :
    ∀ (t : CalendarTable) (offset : ℤ), t.Wf →
      from_datetime_date t offset = .ok none := by
  intro t offset hwf
  unfold from_datetime_date
  have h : date_new t t.minYear 1 1 = .ok ⟨t.minYear, 1, 1⟩ :=
    (date_new_ok_iff t t.minYear 1 1 ⟨t.minYear, 1, 1⟩).mpr
      ⟨⟨le_refl _, hwf.1, by norm_num, by norm_num, by norm_num,
        hwf.2 t.minYear 1 (le_refl _) hwf.1 (by norm_num) (by norm_num)⟩,
        rfl, rfl, rfl⟩
  rw [h]
  rfl

/-- Closed instance of `from_datetime_date_yields_none` at the concrete
sample table and a zero offset (the reference Gregorian date itself). -/
theorem from_datetime_date_yields_none_witness :
    from_datetime_date sampleTable 0 = .ok none :=
  from_datetime_date_yields_none sampleTable 0 sampleTable_wf

/-- C3: every BsDate a public operation actually produces — via the
constructor, via `replace`, or via `from_datetime_date` — satisfies the
year/month/day invariants; immutability holds because a `BsDate` is a pure
value and no operation writes to an existing one. -/
theorem produced_dates_satisfy_invariants :
    (∀ (t : CalendarTable) (y m d : ℤ) (b : BsDate),
        date_new t y m d = .ok b → ValidDate t b) ∧
    (∀ (t : CalendarTable) (a : BsDate) (yo mo dd : Option ℤ) (b : BsDate),
        date_replace t a yo mo dd = .ok b → ValidDate t b) ∧
    (∀ (t : CalendarTable) (offset : ℤ) (b : BsDate),
        from_datetime_date t offset = .ok (some b) → ValidDate t b) := by
  refine ⟨?_, ?_, ?_⟩
  · intro t y m d b h
    exact ((date_new_ok_iff t y m d b).mp h).1
  · intro t a yo mo dd b h
    exact ((date_new_ok_iff t _ _ _ b).mp h).1
  · intro t offset b h
    unfold from_datetime_date at h
    cases hE : date_new t t.minYear 1 1 with
    | error e => rw [hE] at h; cases h
    | ok epoch => rw [hE] at h; simp [date_add] at h

/-- Closed instance of `produced_dates_satisfy_invariants`: the invariants of
the date the constructor builds from `(2078, 9, 1)` on the sample table. -/
theorem produced_dates_satisfy_invariants_witness :
    ValidDate sampleTable ⟨2078, 9, 1⟩ :=
  produced_dates_satisfy_invariants.1 sampleTable 2078 9 1 ⟨2078, 9, 1⟩ rfl

/-- C4: `_days_in_month` returns the stored day-count on an in-range
year/month and fails with an out-of-range-classified error (the month
`assert` or the year `KeyError`) whenever the year is outside
`[MINYEAR, MAXYEAR]` or the month outside `[1, 12]`. -/
theorem days_in_month_contract :
    ∀ (t : CalendarTable) (y m : ℤ),
      ((t.minYear ≤ y ∧ y ≤ t.maxYear) → (1 ≤ m ∧ m ≤ 12) →
        days_in_month t y m = .ok (t.months y m)) ∧
      (¬((t.minYear ≤ y ∧ y ≤ t.maxYear) ∧ (1 ≤ m ∧ m ≤ 12)) →
        ∃ e, days_in_month t y m = .error e ∧ e.isOutOfRange = true) := by
  intro t y m
  constructor
  · intro hy hm
    unfold days_in_month
    rw [if_pos hm, if_pos hy]
  · intro h
    unfold days_in_month
    by_cases hm : 1 ≤ m ∧ m ≤ 12
    · have hy : ¬(t.minYear ≤ y ∧ y ≤ t.maxYear) := fun hy => h ⟨hy, hm⟩
      rw [if_pos hm, if_neg hy]
      exact ⟨.keyYear, rfl, rfl⟩
    · rw [if_neg hm]
      exact ⟨.assertMonth, rfl, rfl⟩

/-- Closed instance of `days_in_month_contract`: the in-range lookup
`(2078, 1)` and the out-of-range year `3000` on the sample table. -/
theorem days_in_month_contract_witness :
    days_in_month sampleTable 2078 1 = .ok (sampleTable.months 2078 1) ∧
      ∃ e, days_in_month sampleTable 3000 1 = .error e ∧
        e.isOutOfRange = true :=
  ⟨(days_in_month_contract sampleTable 2078 1).1 (by norm_num [sampleTable])
      (by norm_num),
    (days_in_month_contract sampleTable 3000 1).2 (by norm_num [sampleTable])⟩

/-- C5: construction validates year, then month, then day, short-circuiting
at the first failure (an out-of-range year is reported as the year error
even when month and day are also bad, and so on); year/month failures carry
the `OutOfRange` taxon and day failures the `InvalidDay` taxon; at the
boundary, `days_in_month` days succeed and one more day fails with
`InvalidDay`. -/
theorem construction_validation_order :
    ∀ (t : CalendarTable) (y m d : ℤ),
      (¬(t.minYear ≤ y ∧ y ≤ t.maxYear) →
        date_new t y m d = .error .valueYear ∧
          DateError.valueYear.isOutOfRange = true) ∧
      ((t.minYear ≤ y ∧ y ≤ t.maxYear) → ¬(1 ≤ m ∧ m ≤ 12) →
        date_new t y m d = .error .valueMonth ∧
          DateError.valueMonth.isOutOfRange = true) ∧
      ((t.minYear ≤ y ∧ y ≤ t.maxYear) → (1 ≤ m ∧ m ≤ 12) →
          ¬(1 ≤ d ∧ d ≤ t.months y m) →
        date_new t y m d = .error .valueDay ∧
          DateError.valueDay.isInvalidDay = true) ∧
      (t.Wf → (t.minYear ≤ y ∧ y ≤ t.maxYear) → (1 ≤ m ∧ m ≤ 12) →
        date_new t y m (t.months y m) = .ok ⟨y, m, t.months y m⟩ ∧
          date_new t y m (t.months y m + 1) = .error .valueDay) := by
  intro t y m d
  have hday : ∀ d' : ℤ, (t.minYear ≤ y ∧ y ≤ t.maxYear) → (1 ≤ m ∧ m ≤ 12) →
      ¬(1 ≤ d' ∧ d' ≤ t.months y m) → date_new t y m d' = .error .valueDay := by
    intro d' h1 h2 h3
    unfold date_new check_date_fields days_in_month
    rw [if_neg (not_not_intro h1), if_neg (not_not_intro h2), if_pos h2,
      if_pos h1]
    simp only
    rw [if_pos h3]
  refine ⟨?_, ?_, ?_, ?_⟩
  · intro h1
    refine ⟨?_, rfl⟩
    unfold date_new check_date_fields
    rw [if_pos h1]
  · intro h1 h2
    refine ⟨?_, rfl⟩
    unfold date_new check_date_fields
    rw [if_neg (not_not_intro h1), if_pos h2]
  · intro h1 h2 h3
    exact ⟨hday d h1 h2 h3, rfl⟩
  · intro hwf h1 h2
    constructor
    · exact (date_new_ok_iff t y m (t.months y m) ⟨y, m, t.months y m⟩).mpr
        ⟨⟨h1.1, h1.2, h2.1, h2.2,
          hwf.2 y m h1.1 h1.2 h2.1 h2.2, le_refl _⟩, rfl, rfl, rfl⟩
    · exact hday (t.months y m + 1) h1 h2 (by omega)

/-- Closed instance of `construction_validation_order`: on the sample table,
month 5 of year 2078 has 30 days; day 30 constructs, day 31 fails with the
day error, an out-of-range year fails with the year error. -/
theorem construction_validation_order_witness :
    date_new sampleTable 2078 5 30 = .ok ⟨2078, 5, 30⟩ ∧
      date_new sampleTable 2078 5 31 = .error .valueDay ∧
      date_new sampleTable 3000 5 10 = .error .valueYear ∧
      date_new sampleTable 2078 13 10 = .error .valueMonth :=
  ⟨((construction_validation_order sampleTable 2078 5 0).2.2.2 sampleTable_wf
      (by norm_num [sampleTable]) (by norm_num)).1,
    ((construction_validation_order sampleTable 2078 5 0).2.2.2 sampleTable_wf
      (by norm_num [sampleTable]) (by norm_num)).2,
    ((construction_validation_order sampleTable 3000 5 10).1
      (by norm_num [sampleTable])).1,
    ((construction_validation_order sampleTable 2078 13 10).2.1
      (by norm_num [sampleTable]) (by norm_num)).1⟩

theorem sum_Ico_glue (f : ℤ → ℤ) {a b c : ℤ} (hab : a ≤ b) (hbc : b ≤ c) :
    (∑ i ∈ Finset.Ico a b, f i) + (∑ i ∈ Finset.Ico b c, f i) =
      ∑ i ∈ Finset.Ico a c, f i := by
  rw [← Finset.sum_union (Finset.Ico_disjoint_Ico_consecutive a b c),
    Finset.Ico_union_Ico_eq_Ico hab hbc]

theorem sum_Ico_top (f : ℤ → ℤ) {a b : ℤ} (hab : a ≤ b) :
    ∑ i ∈ Finset.Ico a (b + 1), f i = (∑ i ∈ Finset.Ico a b, f i) + f b := by
  have hs : Finset.Ico b (b + 1) = {b} := by
    ext x
    simp only [Finset.mem_Ico, Finset.mem_singleton]
    omega
  rw [← sum_Ico_glue f hab (by omega), hs, Finset.sum_singleton]

theorem sum_Ico_extend (f : ℤ → ℤ) {a b c : ℤ} (hab : a ≤ b) (hbc : b ≤ c)
    (hf : ∀ i, b ≤ i → i < c → 0 ≤ f i) :
    ∑ i ∈ Finset.Ico a b, f i ≤ ∑ i ∈ Finset.Ico a c, f i := by
  have hn : 0 ≤ ∑ i ∈ Finset.Ico b c, f i := by
    refine Finset.sum_nonneg ?_
    intro i hi
    rw [Finset.mem_Ico] at hi
    exact hf i hi.1 hi.2
  have := sum_Ico_glue f hab hbc
  omega

theorem yearDays_as_Ico (t : CalendarTable) (y : ℤ) :
    yearDays t y = ∑ m ∈ Finset.Ico (1 : ℤ) 13, t.months y m := by
  unfold yearDays
  have h : Finset.Icc (1 : ℤ) 12 = Finset.Ico (1 : ℤ) 13 := by
    ext x
    simp only [Finset.mem_Icc, Finset.mem_Ico]
    omega
  rw [h]

theorem yearDays_nonneg (t : CalendarTable) (hwf : t.Wf) {y : ℤ}
    (h1 : t.minYear ≤ y) (h2 : y ≤ t.maxYear) : 0 ≤ yearDays t y := by
  unfold yearDays
  refine Finset.sum_nonneg ?_
  intro m hm
  rw [Finset.mem_Icc] at hm
  exact le_trans zero_le_one (hwf.2 y m h1 h2 hm.1 hm.2)

/-- The within-year part of `to_ordinal` ranges over `[1, yearDays]` for a
valid date. -/
theorem inYear_bounds (t : CalendarTable) (hwf : t.Wf) (d : BsDate)
    (hd : ValidDate t d) :
    1 ≤ (∑ m ∈ Finset.Ico (1 : ℤ) d.month, t.months d.year m) + d.day ∧
      (∑ m ∈ Finset.Ico (1 : ℤ) d.month, t.months d.year m) + d.day ≤
        yearDays t d.year := by
  obtain ⟨v1, v2, v3, v4, v5, v6⟩ := hd
  have hnn : 0 ≤ ∑ m ∈ Finset.Ico (1 : ℤ) d.month, t.months d.year m := by
    refine Finset.sum_nonneg ?_
    intro m hm
    rw [Finset.mem_Ico] at hm
    exact le_trans zero_le_one (hwf.2 d.year m v1 v2 hm.1 (by omega))
  refine ⟨by omega, ?_⟩
  have h1 : (∑ m ∈ Finset.Ico (1 : ℤ) d.month, t.months d.year m) + d.day ≤
      ∑ m ∈ Finset.Ico (1 : ℤ) (d.month + 1), t.months d.year m := by
    rw [sum_Ico_top _ v3]
    omega
  have h2 : ∑ m ∈ Finset.Ico (1 : ℤ) (d.month + 1), t.months d.year m ≤
      ∑ m ∈ Finset.Ico (1 : ℤ) 13, t.months d.year m := by
    refine sum_Ico_extend _ (by omega) (by omega) ?_
    intro i hi1 hi2
    exact le_trans zero_le_one (hwf.2 d.year i v1 v2 (by omega) (by omega))
  rw [yearDays_as_Ico]
  omega

/-- The spec-modelled linearization is strictly monotone along the
lexicographic order, over valid dates of a well-formed table. -/
theorem to_ordinal_lt_of_tripleGt (t : CalendarTable) (hwf : t.Wf)
    {a b : BsDate} (ha : ValidDate t a) (hb : ValidDate t b)
    (hlt : tripleGt (b.year, b.month, b.day) (a.year, a.month, a.day)) :
    to_ordinal t a < to_ordinal t b := by
  have hairy := inYear_bounds t hwf a ha
  have hb2 := inYear_bounds t hwf b hb
  have hlt' : a.year < b.year ∨ (b.year = a.year ∧
      (a.month < b.month ∨ (b.month = a.month ∧ a.day < b.day))) := by
    simpa [tripleGt] using hlt
  obtain ⟨a1, a2, a3, a4, a5, a6⟩ := ha
  obtain ⟨b1, b2, b3, b4, b5, b6⟩ := hb
  unfold to_ordinal
  rcases hlt' with hy | ⟨hy, hm | ⟨hm, hd⟩⟩
  · -- a.year < b.year
    have e3 : (∑ y ∈ Finset.Ico t.minYear a.year, yearDays t y) +
        yearDays t a.year =
        ∑ y ∈ Finset.Ico t.minYear (a.year + 1), yearDays t y :=
      (sum_Ico_top _ a1).symm
    have e4 : ∑ y ∈ Finset.Ico t.minYear (a.year + 1), yearDays t y ≤
        ∑ y ∈ Finset.Ico t.minYear b.year, yearDays t y := by
      refine sum_Ico_extend _ (by omega) (by omega) ?_
      intro i hi1 hi2
      exact yearDays_nonneg t hwf (by omega) (by omega)
    omega
  · -- same year, a.month < b.month
    rw [hy]
    have f1 : (∑ m ∈ Finset.Ico (1 : ℤ) a.month, t.months a.year m) + a.day ≤
        ∑ m ∈ Finset.Ico (1 : ℤ) (a.month + 1), t.months a.year m := by
      rw [sum_Ico_top _ a3]
      omega
    have f2 : ∑ m ∈ Finset.Ico (1 : ℤ) (a.month + 1), t.months a.year m ≤
        ∑ m ∈ Finset.Ico (1 : ℤ) b.month, t.months a.year m := by
      refine sum_Ico_extend _ (by omega) (by omega) ?_
      intro i hi1 hi2
      exact le_trans zero_le_one (hwf.2 a.year i a1 a2 (by omega) (by omega))
    omega
  · -- same year and month, a.day < b.day
    rw [hy, hm]
    omega

theorem tripleGt_trichotomy (x y : ℤ × ℤ × ℤ) :
    x = y ∨ tripleGt x y ∨ tripleGt y x := by
  obtain ⟨x1, x2, x3⟩ := x
  obtain ⟨y1, y2, y3⟩ := y
  simp only [tripleGt, Prod.mk.injEq]
  omega

theorem tripleGt_asymm {x y : ℤ × ℤ × ℤ} (h : tripleGt x y) : ¬tripleGt y x := by
  obtain ⟨x1, x2, x3⟩ := x
  obtain ⟨y1, y2, y3⟩ := y
  simp only [tripleGt] at h ⊢
  omega

theorem tripleGt_irrefl (x : ℤ × ℤ × ℤ) : ¬tripleGt x x := by
  obtain ⟨x1, x2, x3⟩ := x
  simp only [tripleGt]
  omega

/-- C6: `_cmp`/`_compare` realize the lexicographic comparison of the
`(year, month, day)` triples, and over valid dates of a well-formed table
this agrees with comparing the spec-modelled `to_ordinal` values; in
particular `date(2078, 9, 1) > date(2078, 2, 8)` is `True` and
`date(2078, 9, 1) == date(2078, 2, 8)` is `False`. -/
theorem compare_lexicographic_and_ordinal :
    (∀ (t : CalendarTable) (a b : BsDate), t.Wf →
      ValidDate t a → ValidDate t b →
        ((date_cmp a b = 0 ↔ a = b) ∧
          (date_cmp a b = 1 ↔
            tripleGt (a.year, a.month, a.day) (b.year, b.month, b.day)) ∧
          (date_cmp a b = -1 ↔
            tripleGt (b.year, b.month, b.day) (a.year, a.month, a.day)) ∧
          (date_cmp a b = 0 ↔ to_ordinal t a = to_ordinal t b) ∧
          (date_cmp a b = 1 ↔ to_ordinal t b < to_ordinal t a) ∧
          (date_cmp a b = -1 ↔ to_ordinal t a < to_ordinal t b))) ∧
      date_gt ⟨2078, 9, 1⟩ (.bs ⟨2078, 2, 8⟩) = some true ∧
      date_eq ⟨2078, 9, 1⟩ (.bs ⟨2078, 2, 8⟩) = some false := by
  refine ⟨?_, rfl, rfl⟩
  intro t a b hwf ha hb
  have hab : a = b ↔
      (a.year, a.month, a.day) = (b.year, b.month, b.day) := by
    cases a; cases b; simp [Prod.ext_iff, BsDate.mk.injEq]
  unfold date_cmp compare_triples
  by_cases hxy : (a.year, a.month, a.day) = (b.year, b.month, b.day)
  · have hoeq : to_ordinal t a = to_ordinal t b := by
      rw [hab.mpr hxy]
    rw [if_pos hxy]
    refine ⟨by simp [hab, hxy], ?_, ?_, by simp [hoeq], ?_, ?_⟩
    · simp only [hxy]
      constructor
      · intro h; exact absurd h (by norm_num)
      · intro h; exact absurd h (tripleGt_irrefl _)
    · simp only [hxy]
      constructor
      · intro h; exact absurd h (by norm_num)
      · intro h; exact absurd h (tripleGt_irrefl _)
    · constructor
      · intro h; exact absurd h (by norm_num)
      · intro h; omega
    · constructor
      · intro h; exact absurd h (by norm_num)
      · intro h; omega
  · rcases tripleGt_trichotomy (a.year, a.month, a.day)
        (b.year, b.month, b.day) with h | h | h
    · exact absurd h hxy
    · have hord : to_ordinal t b < to_ordinal t a :=
        to_ordinal_lt_of_tripleGt t hwf hb ha h
      rw [if_neg hxy, if_pos h]
      refine ⟨?_, by simp [h], ?_, ?_, by simp [hord], ?_⟩
      · constructor
        · intro hc; exact absurd hc (by norm_num)
        · intro hc; exact absurd (hab.mp hc) hxy
      · constructor
        · intro hc; exact absurd hc (by norm_num)
        · intro hc; exact absurd hc (tripleGt_asymm h)
      · constructor
        · intro hc; exact absurd hc (by norm_num)
        · intro hc; omega
      · constructor
        · intro hc; exact absurd hc (by norm_num)
        · intro hc; omega
    · have hord : to_ordinal t a < to_ordinal t b :=
        to_ordinal_lt_of_tripleGt t hwf ha hb h
      have hngt : ¬tripleGt (a.year, a.month, a.day)
          (b.year, b.month, b.day) := tripleGt_asymm h
      rw [if_neg hxy, if_neg hngt]
      refine ⟨?_, ?_, by simp [h], ?_, ?_, by simp [hord]⟩
      · constructor
        · intro hc; exact absurd hc (by norm_num)
        · intro hc; exact absurd (hab.mp hc) hxy
      · constructor
        · intro hc; exact absurd hc (by norm_num)
        · intro hc; exact absurd hc hngt
      · constructor
        · intro hc; exact absurd hc (by norm_num)
        · intro hc; omega
      · constructor
        · intro hc; exact absurd hc (by norm_num)
        · intro hc; omega

/-- Closed instance of `compare_lexicographic_and_ordinal` on the sample
table: `date(2078, 2, 8)` compares below `date(2078, 9, 1)` and their
spec-modelled ordinals order the same way. -/
theorem compare_lexicographic_and_ordinal_witness :
    to_ordinal sampleTable ⟨2078, 2, 8⟩ < to_ordinal sampleTable ⟨2078, 9, 1⟩ :=
  ((compare_lexicographic_and_ordinal.1 sampleTable ⟨2078, 2, 8⟩ ⟨2078, 9, 1⟩
      sampleTable_wf (by decide) (by decide)).2.2.2.2.2).mp (by decide)

/-- C7: each of the five comparison operators answers `NotImplemented`
(embedded as `none`) — rather than raising — whenever the right operand is
not a BsDate. -/
theorem comparisons_with_non_dates :
    ∀ a : BsDate,
      date_eq a .nonDate = none ∧ date_lt a .nonDate = none ∧
        date_le a .nonDate = none ∧ date_gt a .nonDate = none ∧
        date_ge a .nonDate = none :=
  fun _ => ⟨rfl, rfl, rfl, rfl, rfl⟩

theorem digitsRev_length_le :
    ∀ (f n w : ℕ), n ≤ f → n < 10 ^ w → (digitsRev f n).length ≤ w := by
  intro f
  induction f with
  | zero => intro n w _ _; simp [digitsRev]
  | succ f ih =>
      intro n w hnf hw
      match n with
      | 0 => simp [digitsRev]
      | k + 1 =>
          match w with
          | 0 => simp at hw
          | w' + 1 =>
              have hdiv_le : (k + 1) / 10 ≤ f := by
                have := Nat.div_le_self (k + 1) 10
                have := Nat.div_lt_self (Nat.succ_pos k) (by norm_num : (1 : ℕ) < 10)
                omega
              have hdiv_lt : (k + 1) / 10 < 10 ^ w' := by
                rw [Nat.div_lt_iff_lt_mul (by norm_num)]
                calc k + 1 < 10 ^ (w' + 1) := hw
                  _ = 10 ^ w' * 10 := by ring
              have := ih ((k + 1) / 10) w' hdiv_le hdiv_lt
              simp only [digitsRev, List.length_cons]
              omega

theorem natToStr_length_le {k w : ℕ} (hw : 0 < w) (h : k < 10 ^ w) :
    (natToStr k).length ≤ w := by
  unfold natToStr
  by_cases hk : k = 0
  · rw [if_pos hk]
    have h1 : ("0" : String).length = 1 := rfl
    omega
  · rw [if_neg hk]
    have heq : (String.mk ((digitsRev k k).reverse.map
        fun d => Char.ofNat (48 + d))).length =
        (digitsRev k k).length := by
      show ((digitsRev k k).reverse.map fun d => Char.ofNat (48 + d)).length =
        (digitsRev k k).length
      rw [List.length_map, List.length_reverse]
    rw [heq]
    exact digitsRev_length_le k k w (le_refl k) h

theorem padLeft_length {w : ℕ} {s : String} (h : s.length ≤ w) :
    (padLeft w s).length = w := by
  unfold padLeft
  rw [String.length_append]
  have heq : (String.mk (List.replicate (w - s.length) '0')).length =
      w - s.length := by
    show (List.replicate (w - s.length) '0').length = w - s.length
    rw [List.length_replicate]
  rw [heq]
  omega

theorem padNum_length {w : ℕ} {n : ℤ} (h0 : 0 ≤ n) (h : n.toNat < 10 ^ w)
    (hw : 0 < w) : (padNum w n).length = w := by
  unfold padNum
  rw [if_neg (not_lt.mpr h0)]
  exact padLeft_length (natToStr_length_le hw h)

/-- C8: for a valid date with a four-digit-or-less year and two-digit-or-less
day, `isoformat` renders the fixed-width ten-character `YYYY-MM-DD` form — a
4-character zero-padded year, 2-character zero-padded month and day joined by
dashes — and `date(2078, 9, 1).isoformat() == "2078-09-01"`. -/
theorem isoformat_fixed_width :
    (∀ (t : CalendarTable) (d : BsDate), ValidDate t d →
        0 ≤ d.year → d.year ≤ 9999 → d.day ≤ 99 →
        (isoformat d).length = 10 ∧
          ∃ ys ms ds : String,
            isoformat d = ys ++ "-" ++ ms ++ "-" ++ ds ∧
              ys.length = 4 ∧ ms.length = 2 ∧ ds.length = 2) ∧
      isoformat ⟨2078, 9, 1⟩ = "2078-09-01" := by
  refine ⟨?_, rfl⟩
  intro t d hv h0 h1 h2
  obtain ⟨_, _, m1, m2, d1, _⟩ := hv
  have hy : (padNum 4 d.year).length = 4 :=
    padNum_length h0 (by norm_num; omega) (by norm_num)
  have hm : (padNum 2 d.month).length = 2 :=
    padNum_length (by omega) (by norm_num; omega) (by norm_num)
  have hd : (padNum 2 d.day).length = 2 :=
    padNum_length (by omega) (by norm_num; omega) (by norm_num)
  constructor
  · unfold isoformat
    rw [String.length_append, String.length_append, String.length_append,
      String.length_append, hy, hm, hd]
    rfl
  · exact ⟨padNum 4 d.year, padNum 2 d.month, padNum 2 d.day, rfl, hy, hm, hd⟩

/-- Closed instance of `isoformat_fixed_width` at `date(2078, 9, 1)` on the
sample table. -/
theorem isoformat_fixed_width_witness :
    (isoformat ⟨2078, 9, 1⟩).length = 10 :=
  (isoformat_fixed_width.1 sampleTable ⟨2078, 9, 1⟩ (by decide) (by decide)
      (by decide) (by decide)).1

/-- C9 counterexample: `date(2078.5, 9, 1)` — a non-integral float year — is
not rejected: `int(2078.5)` truncates to `2078` and construction succeeds. -/
theorem non_integral_float_accepted :
    (mkRat 4157 2).den = 2 ∧
      date_new_py sampleTable (.vfloat (mkRat 4157 2)) (.vint 9) (.vint 1) =
        .ok ⟨2078, 9, 1⟩ :=
  ⟨rfl, rfl⟩

/-- C9 (amended): the constructor coerces each argument with `int(...)`
before any range validation — a non-coercible argument (`None`) fails with
the `TypeError`-equivalent even when another field is out of range — but a
non-integral float is truncated toward zero and accepted, not rejected. -/
theorem constructor_coercion_behaviour :
    ∀ (t : CalendarTable) (m d : PyVal) (y : ℤ) (q : ℚ),
      date_new_py t .vnone m d = .error .typeError ∧
        DateError.typeError.isInvalidArgument = true ∧
        date_new_py t (.vfloat q) m d = date_new_py t (.vint (ratTrunc q)) m d ∧
        (¬(t.minYear ≤ y ∧ y ≤ t.maxYear) →
          date_new_py t (.vint y) .vnone d = .error .typeError) :=
  fun _ _ _ _ _ => ⟨rfl, rfl, rfl, fun _ => rfl⟩

/-- Closed instance of `constructor_coercion_behaviour`: the out-of-range
year `3000` paired with a `None` month still reports the coercion
`TypeError`, showing coercion precedes range validation. -/
theorem constructor_coercion_behaviour_witness :
    date_new_py sampleTable (.vint 3000) .vnone (.vint 1) =
      .error .typeError :=
  (constructor_coercion_behaviour sampleTable .vnone (.vint 1) 3000 0).2.2.2
    (by norm_num [sampleTable])

/-- C10: `replace` with every field omitted rebuilds the same date (equality
of values), and any overridden combination is re-validated through the
constructor, so every date `replace` returns satisfies the invariants. -/
theorem replace_identity_and_revalidates :
    ∀ (t : CalendarTable) (a : BsDate),
      ValidDate t a →
        date_replace t a none none none = .ok a ∧
          ∀ (yo mo dd : Option ℤ) (b : BsDate),
            date_replace t a yo mo dd = .ok b → ValidDate t b := by
  intro t a hv
  constructor
  · unfold date_replace
    simp only [Option.getD_none]
    exact (date_new_ok_iff t a.year a.month a.day a).mpr ⟨hv, rfl, rfl, rfl⟩
  · intro yo mo dd b h
    exact ((date_new_ok_iff t _ _ _ b).mp h).1

/-- Closed instance of `replace_identity_and_revalidates` at
`date(2078, 9, 1)` on the sample table. -/
theorem replace_identity_and_revalidates_witness :
    date_replace sampleTable ⟨2078, 9, 1⟩ none none none =
      .ok ⟨2078, 9, 1⟩ :=
  (replace_identity_and_revalidates sampleTable ⟨2078, 9, 1⟩
      (by norm_num [ValidDate, sampleTable])).1
